import Mathlib

/-!
Verification of the inmemdb in-memory key-value store (Go).

The embedding follows the source files `database.go` and the transaction
overlay file.  Go maps become association lists with unique keys built by
`insertA` / `eraseA`; Go heap allocation of `Entry` objects is made explicit
with an allocation counter `nextAddr`, because `CommitTransaction` compares
the captured `oldValue` pointer (`*string`, aimed at `&entry.Value`) with the
address of the currently stored entry's `Value` field: two `Entry` objects
are the same Go object exactly when they carry the same allocation address.
`Entry.Value` is never mutated after allocation in the source, so an `Entry`
in the model is a pair of its address and its (immutable) string value.
-/

/-- Error values of `database.go` (`ErrKeyEmpty`, `ErrKeyNotFound`, ...). -/
inductive DBError where
  | keyEmpty
  | keyNotFound
  | transactionExists
  | transactionNotFound
  | transactionIDEmpty
  | transactionDiscrepancy
deriving DecidableEq

/-- The `stateType` enum of the overlay file: `stateAdded`, `stateUpdated`, `stateDeleted`. -/
inductive stateType where
  | stateAdded
  | stateUpdated
  | stateDeleted
deriving DecidableEq

export stateType (stateAdded stateUpdated stateDeleted)

/-- `Entry` from `database.go`, together with its heap address
(the address of one `NewEntry` allocation). -/
structure Entry where
  addr : Nat
  value : String
deriving DecidableEq

/-- `NewEntry` from `database.go`; the address is supplied by the caller's
allocation counter. -/
def NewEntry (value : String) (addr : Nat) : Entry :=
  { addr := addr, value := value }

/-- `UncommitedEntry` of the overlay file.  `oldValue` is a `*string` aimed at
the `Value` field of the committed `Entry` seen at staging time, so it is
modelled as that whole `Entry` (address and contents); `none` is the nil
pointer.  `newValue` is a pointer to a fresh copy of the argument, so only its
contents matter. -/
structure UncommitedEntry where
  oldValue : Option Entry
  newValue : Option String
  state : stateType
deriving DecidableEq

/-- `Transaction` of the overlay file.  The `db` back pointer is dropped: the
operations receive the database explicitly. -/
structure Transaction where
  id : String
  uncommitedData : List (String × UncommitedEntry)
deriving DecidableEq

/-- `NewTransaction` of the overlay file: an empty local cache. -/
def NewTransaction (id : String) : Transaction :=
  { id := id, uncommitedData := [] }

/-- `Database` from `database.go`, plus the allocation counter for `NewEntry`. -/
structure Database where
  data : List (String × Entry)
  activeTransactions : List (String × Transaction)
  nextAddr : Nat
deriving DecidableEq

/-- `NewDatabase` from `database.go`. -/
def NewDatabase : Database :=
  { data := [], activeTransactions := [], nextAddr := 0 }

/-- Association-list lookup, the model of `m[key]` on a Go map. -/
def lookupA {α : Type} : List (String × α) → String → Option α
  | [], _ => none
  | (k, v) :: rest, key => if k = key then some v else lookupA rest key

/-- Association-list update, the model of `m[key] = v` on a Go map. -/
def insertA {α : Type} : List (String × α) → String → α → List (String × α)
  | [], key, v => [(key, v)]
  | (k, w) :: rest, key, v =>
      if k = key then (key, v) :: rest else (k, w) :: insertA rest key v

/-- Association-list removal, the model of `delete(m, key)` on a Go map. -/
def eraseA {α : Type} : List (String × α) → String → List (String × α)
  | [], _ => []
  | (k, w) :: rest, key =>
      if k = key then eraseA rest key else (k, w) :: eraseA rest key

/-- `Database.getTransaction`: empty-identifier check, then registry lookup. -/
def Database.getTransaction (d : Database) (xid : String) :
    Except DBError Transaction :=
  if xid = "" then .error .transactionIDEmpty
  else
    match lookupA d.activeTransactions xid with
    | none => .error .transactionNotFound
    | some t => .ok t

/-- `Database.Put` from `database.go`. -/
def Database.Put (d : Database) (key value : String) :
    Option DBError × Database :=
  if key = "" then (some .keyEmpty, d)
  else
    (none,
      { d with
        data := insertA d.data key (NewEntry value d.nextAddr)
        nextAddr := d.nextAddr + 1 })

/-- `Database.Get` from `database.go`; it only reads, so no state is returned. -/
def Database.Get (d : Database) (key : String) : Except DBError String :=
  if key = "" then .error .keyEmpty
  else
    match lookupA d.data key with
    | none => .error .keyNotFound
    | some entry => .ok entry.value

/-- `Database.Delete` from `database.go`. -/
def Database.Delete (d : Database) (key : String) :
    Option DBError × Database :=
  if key = "" then (some .keyEmpty, d)
  else
    match lookupA d.data key with
    | none => (some .keyNotFound, d)
    | some _ => (none, { d with data := eraseA d.data key })

/-- `Transaction.Put` of the overlay file.  It never fails in the source
(no empty-key check), so it returns only the updated transaction. -/
def Transaction.Put (t : Transaction) (d : Database) (key value : String) :
    Transaction :=
  match lookupA t.uncommitedData key with
  | some uEntry =>
      let st := if uEntry.state = stateDeleted then stateUpdated else uEntry.state
      { t with
        uncommitedData :=
          insertA t.uncommitedData key
            { uEntry with state := st, newValue := some value } }
  | none =>
      match lookupA d.data key with
      | some entry =>
          { t with
            uncommitedData :=
              insertA t.uncommitedData key
                { oldValue := some entry, newValue := some value
                  state := stateUpdated } }
      | none =>
          { t with
            uncommitedData :=
              insertA t.uncommitedData key
                { oldValue := none, newValue := some value
                  state := stateAdded } }

/-- `Transaction.Delete` of the overlay file. -/
def Transaction.Delete (t : Transaction) (d : Database) (key : String) :
    Option DBError × Transaction :=
  match lookupA t.uncommitedData key with
  | some uEntry =>
      if uEntry.state = stateAdded then
        (none, { t with uncommitedData := eraseA t.uncommitedData key })
      else
        (none,
          { t with
            uncommitedData :=
              insertA t.uncommitedData key
                { uEntry with state := stateDeleted, newValue := none } })
  | none =>
      match lookupA d.data key with
      | some entry =>
          (none,
            { t with
              uncommitedData :=
                insertA t.uncommitedData key
                  { oldValue := some entry, newValue := none
                    state := stateDeleted } })
      | none => (some .keyNotFound, t)

/-- `Transaction.Get` of the overlay file.  The source dereferences
`*uEntry.newValue` without a nil check on a non-deleted record; that
dereference is modelled with `Option.getD ""` and is unreachable for
transactions satisfying the overlay invariant (`recordInv`) proved below. -/
def Transaction.Get (t : Transaction) (d : Database) (key : String) :
    Except DBError String :=
  match lookupA t.uncommitedData key with
  | some uEntry =>
      if uEntry.state = stateDeleted then .error .keyNotFound
      else .ok (uEntry.newValue.getD "")
  | none =>
      match lookupA d.data key with
      | some entry => .ok entry.value
      | none => .error .keyNotFound

/-- `Database.PutTxn` from `database.go`: resolve the transaction, then
delegate; the mutated transaction is written back to the registry (in Go the
registry holds a pointer and the mutation is in place). -/
def Database.PutTxn (d : Database) (key value xid : String) :
    Option DBError × Database :=
  match d.getTransaction xid with
  | .error e => (some e, d)
  | .ok t =>
      (none,
        { d with
          activeTransactions :=
            insertA d.activeTransactions xid (t.Put d key value) })

/-- `Database.GetTxn` from `database.go`; the call only reads, so the
database component of the result is always the input state. -/
def Database.GetTxn (d : Database) (key xid : String) :
    Except DBError String × Database :=
  match d.getTransaction xid with
  | .error e => (.error e, d)
  | .ok t => (t.Get d key, d)

/-- `Database.DeleteTxn` from `database.go`. -/
def Database.DeleteTxn (d : Database) (key xid : String) :
    Option DBError × Database :=
  match d.getTransaction xid with
  | .error e => (some e, d)
  | .ok t =>
      let r := t.Delete d key
      (r.1,
        { d with
          activeTransactions := insertA d.activeTransactions xid r.2 })

/-- `Database.CreateTransaction` from `database.go`. -/
def Database.CreateTransaction (d : Database) (xid : String) :
    Option DBError × Database :=
  match d.getTransaction xid with
  | .error .transactionNotFound =>
      (none,
        { d with
          activeTransactions :=
            insertA d.activeTransactions xid (NewTransaction xid) })
  | .error e => (some e, d)
  | .ok _ => (some .transactionExists, d)

/-- `Database.RollbackTransaction` from `database.go`: the deferred
`delete(d.activeTransactions, xid)` runs on every path. -/
def Database.RollbackTransaction (d : Database) (xid : String) :
    Option DBError × Database :=
  let d' := { d with activeTransactions := eraseA d.activeTransactions xid }
  match d.getTransaction xid with
  | .error e => (some e, d')
  | .ok _ => (none, d')

/-- The discrepancy scan of `CommitTransaction` (first loop).  The source
compares `uEntry.oldValue != &entry.Value`: a comparison of `*string`
POINTERS, equal exactly when they point into the same `Entry` allocation,
hence the comparison of addresses here.  A nil `oldValue` never equals a real
field address. -/
def checkDiscrepancy (data : List (String × Entry)) :
    List (String × UncommitedEntry) → Bool
  | [] => false
  | (key, uEntry) :: rest =>
      match lookupA data key with
      | none =>
          if uEntry.state ≠ stateAdded then true
          else checkDiscrepancy data rest
      | some entry =>
          if uEntry.state = stateAdded then true
          else
            match uEntry.oldValue with
            | none => true
            | some old =>
                if old.addr ≠ entry.addr then true
                else checkDiscrepancy data rest

/-- The apply phase of `CommitTransaction` (second loop).  `stateAdded` and
`stateUpdated` store `NewEntry(*uEntry.newValue)` (fresh allocation);
`stateDeleted` removes the key.  The nil dereference of `newValue` is again
modelled with `Option.getD ""`, unreachable under the overlay invariant. -/
def applyAll (pending : List (String × UncommitedEntry))
    (data : List (String × Entry)) (nextAddr : Nat) :
    List (String × Entry) × Nat :=
  match pending with
  | [] => (data, nextAddr)
  | (key, uEntry) :: rest =>
      match uEntry.state with
      | stateDeleted => applyAll rest (eraseA data key) nextAddr
      | _ =>
          applyAll rest
            (insertA data key (NewEntry (uEntry.newValue.getD "") nextAddr))
            (nextAddr + 1)

/-- `Database.CommitTransaction` from `database.go`: the deferred registry
removal runs on every path; the discrepancy scan completes before any
mutation of `data`. -/
def Database.CommitTransaction (d : Database) (xid : String) :
    Option DBError × Database :=
  let removed :=
    fun (db : Database) =>
      { db with activeTransactions := eraseA db.activeTransactions xid }
  match d.getTransaction xid with
  | .error e => (some e, removed d)
  | .ok t =>
      if checkDiscrepancy d.data t.uncommitedData then
        (some .transactionDiscrepancy, removed d)
      else
        let r := applyAll t.uncommitedData d.data d.nextAddr
        (none, removed { d with data := r.1, nextAddr := r.2 })

/-! ## The overlay record invariant and further definitions -/

/-- The invariant of a single pending record, as stated by the spec's data
model: `Added` exactly when `priorValue` is absent; `Deleted` exactly when
`newValue` is absent. -/
def recordInv (e : UncommitedEntry) : Prop :=
  (e.state = stateAdded ↔ e.oldValue = none) ∧
  (e.state = stateDeleted → e.newValue = none) ∧
  (e.state ≠ stateDeleted → e.newValue ≠ none)

instance (e : UncommitedEntry) : Decidable (recordInv e) := by
  unfold recordInv
  infer_instance

/-- The overlay invariant: every pending record of the transaction
satisfies `recordInv`. -/
def txnInv (t : Transaction) : Prop :=
  ∀ p ∈ t.uncommitedData, recordInv p.2

instance (t : Transaction) : Decidable (txnInv t) := by
  unfold txnInv
  infer_instance

/-- One step of activity inside a single transaction.  Each step carries the
committed-store state in effect at that moment: the store may change
arbitrarily between two steps of the same transaction. -/
inductive TxnStep where
  | putStep (d : Database) (k v : String)
  | delStep (d : Database) (k : String)
  | getStep (d : Database) (k : String)

/-- Run one overlay operation.  `Transaction.Get` only reads in the source,
so `getStep` leaves the transaction unchanged. -/
def applyStep (t : Transaction) : TxnStep → Transaction
  | .putStep d k v => t.Put d k v
  | .delStep d k => (t.Delete d k).2
  | .getStep _ _ => t

/-- Run a whole sequence of overlay operations. -/
def applyOps (t : Transaction) : List TxnStep → Transaction
  | [] => t
  | s :: rest => applyOps (applyStep t s) rest

/-- What holds of identifier `x` after teardown: `x` resolves to no
transaction, every transactional operation on `x` reports
`transactionNotFound` without changing the state, and a fresh `Create`
succeeds and installs an empty overlay. -/
def tornDown (d : Database) (x k v : String) : Prop :=
  lookupA d.activeTransactions x = none ∧
  (d.PutTxn k v x).1 = some DBError.transactionNotFound ∧
  (d.PutTxn k v x).2 = d ∧
  (d.GetTxn k x).1 = Except.error DBError.transactionNotFound ∧
  (d.GetTxn k x).2 = d ∧
  (d.DeleteTxn k x).1 = some DBError.transactionNotFound ∧
  (d.DeleteTxn k x).2 = d ∧
  (d.CommitTransaction x).1 = some DBError.transactionNotFound ∧
  (d.CreateTransaction x).1 = none ∧
  lookupA (d.CreateTransaction x).2.activeTransactions x = some (NewTransaction x)

instance : DecidableEq (Except DBError String) := fun a b =>
  match a, b with
  | .error e1, .error e2 =>
      if h : e1 = e2 then isTrue (by rw [h]) else
        isFalse (fun hh => by cases hh; exact h rfl)
  | .error _, .ok _ => isFalse (fun hh => by cases hh)
  | .ok _, .error _ => isFalse (fun hh => by cases hh)
  | .ok v1, .ok v2 =>
      if h : v1 = v2 then isTrue (by rw [h]) else
        isFalse (fun hh => by cases hh; exact h rfl)

/-- A store holding key `a` with value `"p"` (one prior allocation). -/
def dbA : Database :=
  { data := [("a", { addr := 0, value := "p" })]
    activeTransactions := []
    nextAddr := 1 }

/-- An overlay holding an `Updated` record for `a`. -/
def tUpd : Transaction :=
  { id := "t"
    uncommitedData :=
      [("a", { oldValue := some { addr := 0, value := "p" }
               newValue := some "x", state := stateUpdated })] }

/-- An overlay holding a `Deleted` record for `a`. -/
def tDel : Transaction :=
  { id := "t"
    uncommitedData :=
      [("a", { oldValue := some { addr := 0, value := "p" }
               newValue := none, state := stateDeleted })] }

/-- An overlay holding an `Added` record for `b`. -/
def tAdd : Transaction :=
  { id := "t"
    uncommitedData :=
      [("b", { oldValue := none, newValue := some "x"
               state := stateAdded })] }

/-- A database whose only transaction conflicts at commit time: it stages
`b` as `Added` while `b` is already committed. -/
def conflictDB : Database :=
  { data := [("b", { addr := 0, value := "p" })]
    activeTransactions := [("t", tAdd)]
    nextAddr := 1 }

/-- A database with one active transaction with an empty overlay. -/
def idleTxnDB : Database :=
  { data := [("a", { addr := 0, value := "p" })]
    activeTransactions := [("t", NewTransaction "t")]
    nextAddr := 1 }

/-- A database with one active transaction holding a pending record. -/
def busyTxnDB : Database :=
  { data := [("a", { addr := 0, value := "p" })]
    activeTransactions := [("t", tUpd)]
    nextAddr := 1 }

/-- The run behind claim C1: key `a` holds `"v"`; transaction `t` stages an
update of `a`; then `a` is rewritten with the same value `"v"` outside the
transaction, which replaces the stored `Entry` allocation. -/
def rewriteRun : Database :=
  ((((NewDatabase.Put "a" "v").2.CreateTransaction "t").2.PutTxn
      "a" "w" "t").2.Put "a" "v").2

/-- The run behind claim C2: an empty key pushed through `PutTxn` on an
active transaction. -/
def emptyKeyRun : Database :=
  ((NewDatabase.CreateTransaction "t").2.PutTxn "" "v" "t").2
/-! ## Association-list lemmas -/

theorem lookupA_insertA_self {α : Type} (l : List (String × α)) (k : String) (v : α) :
    lookupA (insertA l k v) k = some v := by
  induction l with
  | nil => simp [insertA, lookupA]
  | cons p rest ih =>
      obtain ⟨a, b⟩ := p
      by_cases h : a = k
      · simp [insertA, lookupA, h]
      · simp [insertA, lookupA, h, ih]

theorem lookupA_insertA_ne {α : Type} (l : List (String × α)) (k k' : String) (v : α)
    (h : k' ≠ k) : lookupA (insertA l k v) k' = lookupA l k' := by
  have hk : k ≠ k' := Ne.symm h
  induction l with
  | nil => simp [insertA, lookupA, hk]
  | cons p rest ih =>
      obtain ⟨a, b⟩ := p
      by_cases ha : a = k
      · subst ha
        simp [insertA, lookupA, hk]
      · simp [insertA, lookupA, ha, ih]

theorem lookupA_eraseA_self {α : Type} (l : List (String × α)) (k : String) :
    lookupA (eraseA l k) k = none := by
  induction l with
  | nil => simp [eraseA, lookupA]
  | cons p rest ih =>
      obtain ⟨a, b⟩ := p
      by_cases h : a = k
      · simp [eraseA, h, ih]
      · simp [eraseA, lookupA, h, ih]

theorem lookupA_eraseA_ne {α : Type} (l : List (String × α)) (k k' : String)
    (h : k' ≠ k) : lookupA (eraseA l k) k' = lookupA l k' := by
  have hk : k ≠ k' := Ne.symm h
  induction l with
  | nil => simp [eraseA]
  | cons p rest ih =>
      obtain ⟨a, b⟩ := p
      by_cases ha : a = k
      · subst ha
        simp [eraseA, lookupA, hk, ih]
      · simp [eraseA, lookupA, ha, ih]

theorem lookupA_mem {α : Type} (l : List (String × α)) (k : String) (v : α)
    (h : lookupA l k = some v) : (k, v) ∈ l := by
  induction l with
  | nil => simp [lookupA] at h
  | cons p rest ih =>
      obtain ⟨a, b⟩ := p
      by_cases ha : a = k
      · subst ha
        simp [lookupA] at h
        simp [h]
      · simp [lookupA, ha] at h
        exact List.mem_cons_of_mem _ (ih h)

theorem forall_insertA {α : Type} (P : String × α → Prop) (l : List (String × α))
    (k : String) (v : α) (hl : ∀ p ∈ l, P p) (hv : P (k, v)) :
    ∀ p ∈ insertA l k v, P p := by
  induction l with
  | nil =>
      intro p hp
      simp [insertA] at hp
      simpa [hp] using hv
  | cons q rest ih =>
      obtain ⟨a, b⟩ := q
      by_cases ha : a = k
      · intro p hp
        simp [insertA, ha] at hp
        rcases hp with hp | hp
        · simpa [hp] using hv
        · exact hl p (List.mem_cons_of_mem _ hp)
      · intro p hp
        simp only [insertA, if_neg ha] at hp
        rcases List.mem_cons.mp hp with hp | hp
        · exact hl p (by simp [hp])
        · exact ih (fun q hq => hl q (List.mem_cons_of_mem _ hq)) p hp

theorem mem_eraseA {α : Type} (l : List (String × α)) (k : String) :
    ∀ p ∈ eraseA l k, p ∈ l := by
  induction l with
  | nil => simp [eraseA]
  | cons q rest ih =>
      obtain ⟨a, b⟩ := q
      by_cases ha : a = k
      · intro p hp
        simp only [eraseA, if_pos ha] at hp
        exact List.mem_cons_of_mem _ (ih p hp)
      · intro p hp
        simp only [eraseA, if_neg ha] at hp
        rcases List.mem_cons.mp hp with hp | hp
        · simp [hp]
        · exact List.mem_cons_of_mem _ (ih p hp)

theorem txnInv_lookup {t : Transaction} {k : String} {e : UncommitedEntry}
    (ht : txnInv t) (hk : lookupA t.uncommitedData k = some e) : recordInv e :=
  ht (k, e) (lookupA_mem _ _ _ hk)

theorem txnInv_Put {t : Transaction} (d : Database) (k v : String)
    (ht : txnInv t) : txnInv (t.Put d k v) := by
  cases hc : lookupA t.uncommitedData k with
  | some uEntry =>
      obtain ⟨h1, h2, h3⟩ := txnInv_lookup ht hc
      unfold txnInv
      simp only [Transaction.Put, hc]
      apply forall_insertA _ _ _ _ ht
      cases hs : uEntry.state with
      | stateAdded =>
          have hold := h1.mp hs
          simp [recordInv, hs, hold]
      | stateUpdated =>
          have hold : uEntry.oldValue ≠ none := fun hn =>
            absurd ((h1.mpr hn).symm.trans hs) (by decide)
          simp [recordInv, hs, hold]
      | stateDeleted =>
          have hold : uEntry.oldValue ≠ none := fun hn =>
            absurd ((h1.mpr hn).symm.trans hs) (by decide)
          simp [recordInv, hs, hold]
  | none =>
      unfold txnInv
      simp only [Transaction.Put, hc]
      cases hd : lookupA d.data k with
      | some entry =>
          apply forall_insertA _ _ _ _ ht
          simp [recordInv]
      | none =>
          apply forall_insertA _ _ _ _ ht
          simp [recordInv]

theorem txnInv_Delete {t : Transaction} (d : Database) (k : String)
    (ht : txnInv t) : txnInv (t.Delete d k).2 := by
  cases hc : lookupA t.uncommitedData k with
  | some uEntry =>
      obtain ⟨h1, h2, h3⟩ := txnInv_lookup ht hc
      unfold txnInv
      simp only [Transaction.Delete, hc]
      by_cases hs : uEntry.state = stateAdded
      · simp only [if_pos hs]
        intro p hp
        exact ht p (mem_eraseA t.uncommitedData k p hp)
      · simp only [if_neg hs]
        have hold : uEntry.oldValue ≠ none := fun hn => hs (h1.mpr hn)
        apply forall_insertA _ _ _ _ ht
        simp [recordInv, hold]
  | none =>
      unfold txnInv
      simp only [Transaction.Delete, hc]
      cases hd : lookupA d.data k with
      | some entry =>
          apply forall_insertA _ _ _ _ ht
          simp [recordInv]
      | none =>
          intro p hp
          exact ht p hp

theorem txnInv_new (tid : String) : txnInv (NewTransaction tid) := by
  intro p hp
  simp [NewTransaction] at hp

theorem txnInv_applyOps (ops : List TxnStep) (t : Transaction) (ht : txnInv t) :
    txnInv (applyOps t ops) := by
  induction ops generalizing t with
  | nil => exact ht
  | cons s rest ih =>
      cases s with
      | putStep d k v => exact ih _ (txnInv_Put d k v ht)
      | delStep d k => exact ih _ (txnInv_Delete d k ht)
      | getStep d k => exact ih _ ht

theorem oldValue_stable_Put (t : Transaction) (d : Database) (k k2 v : String)
    (e e' : UncommitedEntry) (hk : lookupA t.uncommitedData k = some e)
    (hk' : lookupA (t.Put d k2 v).uncommitedData k = some e') :
    e'.oldValue = e.oldValue := by
  by_cases hkk : k = k2
  · subst hkk
    simp only [Transaction.Put, hk, lookupA_insertA_self, Option.some.injEq] at hk'
    subst hk'
    rfl
  · cases hc : lookupA t.uncommitedData k2 with
    | some u =>
        simp only [Transaction.Put, hc] at hk'
        rw [lookupA_insertA_ne _ _ _ _ hkk, hk] at hk'
        cases hk'
        rfl
    | none =>
        cases hd : lookupA d.data k2 with
        | some entry =>
            simp only [Transaction.Put, hc, hd] at hk'
            rw [lookupA_insertA_ne _ _ _ _ hkk, hk] at hk'
            cases hk'
            rfl
        | none =>
            simp only [Transaction.Put, hc, hd] at hk'
            rw [lookupA_insertA_ne _ _ _ _ hkk, hk] at hk'
            cases hk'
            rfl

theorem oldValue_stable_Delete (t : Transaction) (d : Database) (k k2 : String)
    (e e' : UncommitedEntry) (hk : lookupA t.uncommitedData k = some e)
    (hk' : lookupA (t.Delete d k2).2.uncommitedData k = some e') :
    e'.oldValue = e.oldValue := by
  by_cases hkk : k = k2
  · subst hkk
    by_cases hs : e.state = stateAdded
    · simp only [Transaction.Delete, hk, if_pos hs] at hk'
      rw [lookupA_eraseA_self] at hk'
      simp at hk'
    · simp only [Transaction.Delete, hk, if_neg hs, lookupA_insertA_self,
        Option.some.injEq] at hk'
      subst hk'
      rfl
  · cases hc : lookupA t.uncommitedData k2 with
    | some u =>
        by_cases hs : u.state = stateAdded
        · simp only [Transaction.Delete, hc, if_pos hs] at hk'
          rw [lookupA_eraseA_ne _ _ _ hkk, hk] at hk'
          cases hk'
          rfl
        · simp only [Transaction.Delete, hc, if_neg hs] at hk'
          rw [lookupA_insertA_ne _ _ _ _ hkk, hk] at hk'
          cases hk'
          rfl
    | none =>
        cases hd : lookupA d.data k2 with
        | some entry =>
            simp only [Transaction.Delete, hc, hd] at hk'
            rw [lookupA_insertA_ne _ _ _ _ hkk, hk] at hk'
            cases hk'
            rfl
        | none =>
            simp only [Transaction.Delete, hc, hd] at hk'
            rw [hk] at hk'
            cases hk'
            rfl

theorem commit_active (d : Database) (x : String) :
    (d.CommitTransaction x).2.activeTransactions =
      eraseA d.activeTransactions x := by
  cases hg : d.getTransaction x with
  | error e => simp [Database.CommitTransaction, hg]
  | ok t =>
      by_cases hchk : checkDiscrepancy d.data t.uncommitedData <;>
        simp [Database.CommitTransaction, hg, hchk]

theorem rollback_active (d : Database) (x : String) :
    (d.RollbackTransaction x).2.activeTransactions =
      eraseA d.activeTransactions x := by
  cases hg : d.getTransaction x <;> simp [Database.RollbackTransaction, hg]

theorem tornDown_of_not_active (d : Database) (x k v : String)
    (hx : x ≠ "") (h : lookupA d.activeTransactions x = none) :
    tornDown d x k v := by
  have hg : d.getTransaction x = .error .transactionNotFound := by
    simp [Database.getTransaction, hx, h]
  refine ⟨h, ?_, ?_, ?_, ?_, ?_, ?_, ?_, ?_, ?_⟩
  · simp [Database.PutTxn, hg]
  · simp [Database.PutTxn, hg]
  · simp [Database.GetTxn, hg]
  · simp [Database.GetTxn, hg]
  · simp [Database.DeleteTxn, hg]
  · simp [Database.DeleteTxn, hg]
  · simp [Database.CommitTransaction, hg]
  · simp [Database.CreateTransaction, hg]
  · simp [Database.CreateTransaction, hg, lookupA_insertA_self]

/-! ## Claim theorems -/

/-- Claim C1 (code bug, evaluation at the failing input).  In `rewriteRun`
the staged record for `a` captured `priorValue` `"v"` (allocation 0), the
store currently holds `"v"` for `a` (the rewrite made allocation 1), so the
current committed value is content-equal to the captured `priorValue`; yet
`CommitTransaction` reports the discrepancy error, because the source
compares the `oldValue` pointer with the current entry's address
(`uEntry.oldValue != &entry.Value`) instead of comparing string contents. -/
theorem commit_rejects_content_equal_rewrite :
    lookupA rewriteRun.activeTransactions "t" =
      some { id := "t"
             uncommitedData :=
               [("a", { oldValue := some { addr := 0, value := "v" }
                        newValue := some "w", state := stateUpdated })] } ∧
    rewriteRun.Get "a" = Except.ok "v" ∧
    (rewriteRun.CommitTransaction "t").1 =
      some DBError.transactionDiscrepancy := by
  refine ⟨?_, ?_, ?_⟩ <;> decide

/-- Claim C2 (code bug, evaluation at the failing input).  `Transaction.Put`
performs no empty-key check, so `PutTxn("", "v", "t")` on an active
transaction `t` returns no error at all — in particular not `ErrKeyEmpty` —
and stages an `Added` pending record for the empty key. -/
theorem putTxn_empty_key_not_rejected :
    ((NewDatabase.CreateTransaction "t").2.PutTxn "" "v" "t").1 = none ∧
    lookupA emptyKeyRun.activeTransactions "t" =
      some { id := "t"
             uncommitedData :=
               [("", { oldValue := none, newValue := some "v"
                       state := stateAdded })] } := by
  refine ⟨?_, ?_⟩ <;> decide

/-- Claim C3: whenever `CommitTransaction` reports the discrepancy error,
the committed store mapping (`data`) is exactly what it was when the commit
began: the discrepancy scan completes before any mutation. -/
theorem commit_conflict_atomic (d : Database) (xid : String)
    (h : (d.CommitTransaction xid).1 = some DBError.transactionDiscrepancy) :
    (d.CommitTransaction xid).2.data = d.data := by
  cases hg : d.getTransaction xid with
  | error e => simp [Database.CommitTransaction, hg]
  | ok t =>
      by_cases hchk : checkDiscrepancy d.data t.uncommitedData
      · simp [Database.CommitTransaction, hg, hchk]
      · simp [Database.CommitTransaction, hg, hchk] at h

theorem commit_conflict_atomic_witness :
    (conflictDB.CommitTransaction "t").1 =
      some DBError.transactionDiscrepancy ∧
    (conflictDB.CommitTransaction "t").2.data = conflictDB.data :=
  ⟨by decide, commit_conflict_atomic conflictDB "t" (by decide)⟩

/-- Claim C9, counterexample: the round trip fails for the empty key — `Put`
rejects it with `ErrKeyEmpty` and the following `Get` does not return the
value. -/
theorem put_get_empty_key_counterexample :
    (NewDatabase.Put "" "v").1 = some DBError.keyEmpty ∧
    ((NewDatabase.Put "" "v").2.Get "" ≠ Except.ok "v") := by
  refine ⟨?_, ?_⟩ <;> decide

/-- Claim C9 as amended: for every NONEMPTY key `k` and every value `v`,
`Put(k, v)` succeeds and a following `Get(k)` returns `v` with no error. -/
theorem put_get_roundtrip_nonempty (d : Database) (k v : String)
    (hk : k ≠ "") :
    (d.Put k v).1 = none ∧ (d.Put k v).2.Get k = Except.ok v := by
  constructor
  · simp [Database.Put, hk]
  · simp [Database.Put, Database.Get, hk, lookupA_insertA_self, NewEntry]

theorem put_get_roundtrip_nonempty_witness :
    "a" ≠ "" ∧
    ((NewDatabase.Put "a" "x").1 = none ∧
      (NewDatabase.Put "a" "x").2.Get "a" = Except.ok "x") :=
  ⟨by decide, put_get_roundtrip_nonempty NewDatabase "a" "x" (by decide)⟩

/-- Claim C4: teardown is unconditional and identifiers are reusable.  After
`CommitTransaction(x)` returns with success, the discrepancy error or the
unknown-identifier error, and after a successful `RollbackTransaction(x)`,
the identifier `x` is no longer active: `PutTxn`, `GetTxn`, `DeleteTxn` and
`CommitTransaction` with `x` all report `transactionNotFound` (without
changing the state), and a subsequent `CreateTransaction(x)` succeeds and
installs a fresh empty overlay. -/
theorem teardown_unconditional (d1 d2 : Database) (x k v : String) :
    (((d1.CommitTransaction x).1 = none ∨
      (d1.CommitTransaction x).1 = some DBError.transactionDiscrepancy ∨
      (d1.CommitTransaction x).1 = some DBError.transactionNotFound) →
      tornDown (d1.CommitTransaction x).2 x k v) ∧
    ((d2.RollbackTransaction x).1 = none →
      tornDown (d2.RollbackTransaction x).2 x k v) := by
  constructor
  · intro h
    have hx : x ≠ "" := by
      intro hxe
      subst hxe
      simp [Database.CommitTransaction, Database.getTransaction] at h
    apply tornDown_of_not_active _ _ _ _ hx
    rw [commit_active]
    exact lookupA_eraseA_self _ _
  · intro h
    have hx : x ≠ "" := by
      intro hxe
      subst hxe
      simp [Database.RollbackTransaction, Database.getTransaction] at h
    apply tornDown_of_not_active _ _ _ _ hx
    rw [rollback_active]
    exact lookupA_eraseA_self _ _

theorem teardown_unconditional_witness :
    tornDown (NewDatabase.CommitTransaction "t").2 "t" "k" "v" ∧
    tornDown (idleTxnDB.RollbackTransaction "t").2 "t" "k" "v" :=
  ⟨(teardown_unconditional NewDatabase idleTxnDB "t" "k" "v").1
      (Or.inr (Or.inr (by decide))),
   (teardown_unconditional NewDatabase idleTxnDB "t" "k" "v").2 (by decide)⟩

/-- Claim C5: inside a transaction, `Get` returns the pending record's
`newValue` when a pending record exists and is not `Deleted`; reports
not-found when the pending record is `Deleted` (whatever the committed store
holds); and otherwise falls through to the committed store, reporting
not-found if the key is absent there too. -/
theorem txn_get_semantics (t : Transaction) (d : Database) (k v : String)
    (e : UncommitedEntry) (entry : Entry) :
    (lookupA t.uncommitedData k = some e → e.state ≠ stateDeleted →
      e.newValue = some v → t.Get d k = Except.ok v) ∧
    (lookupA t.uncommitedData k = some e → e.state = stateDeleted →
      t.Get d k = Except.error DBError.keyNotFound) ∧
    (lookupA t.uncommitedData k = none → lookupA d.data k = some entry →
      t.Get d k = Except.ok entry.value) ∧
    (lookupA t.uncommitedData k = none → lookupA d.data k = none →
      t.Get d k = Except.error DBError.keyNotFound) := by
  refine ⟨fun h1 h2 h3 => ?_, fun h1 h2 => ?_, fun h1 h2 => ?_,
    fun h1 h2 => ?_⟩
  · simp [Transaction.Get, h1, h2, h3]
  · simp [Transaction.Get, h1, h2]
  · simp [Transaction.Get, h1, h2]
  · simp [Transaction.Get, h1, h2]

theorem txn_get_semantics_witness :
    tUpd.Get dbA "a" = Except.ok "x" ∧
    tDel.Get dbA "a" = Except.error DBError.keyNotFound ∧
    (NewTransaction "t").Get dbA "a" = Except.ok "p" ∧
    (NewTransaction "t").Get dbA "b" = Except.error DBError.keyNotFound :=
  ⟨(txn_get_semantics tUpd dbA "a" "x"
      { oldValue := some { addr := 0, value := "p" }
        newValue := some "x", state := stateUpdated }
      { addr := 0, value := "p" }).1 (by decide) (by decide) (by decide),
   (txn_get_semantics tDel dbA "a" "x"
      { oldValue := some { addr := 0, value := "p" }
        newValue := none, state := stateDeleted }
      { addr := 0, value := "p" }).2.1 (by decide) (by decide),
   (txn_get_semantics (NewTransaction "t") dbA "a" "x"
      { oldValue := none, newValue := some "x", state := stateAdded }
      { addr := 0, value := "p" }).2.2.1 (by decide) (by decide),
   (txn_get_semantics (NewTransaction "t") dbA "b" "x"
      { oldValue := none, newValue := some "x", state := stateAdded }
      { addr := 0, value := "p" }).2.2.2 (by decide) (by decide)⟩

/-- Claim C6: inside a transaction, `Delete` removes an `Added` pending
record entirely with no error; flips any other pending record to `Deleted`
with `newValue` cleared and `priorValue` preserved; fails with
`keyNotFound` and stages nothing when neither the overlay nor the committed
store knows the key; and otherwise stages a `Deleted` record whose
`priorValue` is the current committed value. -/
theorem txn_delete_semantics (t : Transaction) (d : Database) (k : String)
    (e : UncommitedEntry) (entry : Entry) :
    (lookupA t.uncommitedData k = some e → e.state = stateAdded →
      (t.Delete d k).1 = none ∧
      lookupA (t.Delete d k).2.uncommitedData k = none) ∧
    (lookupA t.uncommitedData k = some e → e.state ≠ stateAdded →
      (t.Delete d k).1 = none ∧
      lookupA (t.Delete d k).2.uncommitedData k =
        some { oldValue := e.oldValue, newValue := none
               state := stateDeleted }) ∧
    (lookupA t.uncommitedData k = none → lookupA d.data k = none →
      t.Delete d k = (some DBError.keyNotFound, t)) ∧
    (lookupA t.uncommitedData k = none → lookupA d.data k = some entry →
      (t.Delete d k).1 = none ∧
      lookupA (t.Delete d k).2.uncommitedData k =
        some { oldValue := some entry, newValue := none
               state := stateDeleted }) := by
  refine ⟨fun h1 h2 => ?_, fun h1 h2 => ?_, fun h1 h2 => ?_,
    fun h1 h2 => ?_⟩
  · simp [Transaction.Delete, h1, h2, lookupA_eraseA_self]
  · simp [Transaction.Delete, h1, h2, lookupA_insertA_self]
  · simp [Transaction.Delete, h1, h2]
  · simp [Transaction.Delete, h1, h2, lookupA_insertA_self]

theorem txn_delete_semantics_witness :
    ((tAdd.Delete dbA "b").1 = none ∧
      lookupA (tAdd.Delete dbA "b").2.uncommitedData "b" = none) ∧
    ((tUpd.Delete dbA "a").1 = none ∧
      lookupA (tUpd.Delete dbA "a").2.uncommitedData "a" =
        some { oldValue := some { addr := 0, value := "p" }
               newValue := none, state := stateDeleted }) ∧
    (NewTransaction "t").Delete dbA "b" =
      (some DBError.keyNotFound, NewTransaction "t") ∧
    (((NewTransaction "t").Delete dbA "a").1 = none ∧
      lookupA ((NewTransaction "t").Delete dbA "a").2.uncommitedData "a" =
        some { oldValue := some { addr := 0, value := "p" }
               newValue := none, state := stateDeleted }) :=
  ⟨(txn_delete_semantics tAdd dbA "b"
      { oldValue := none, newValue := some "x", state := stateAdded }
      { addr := 0, value := "p" }).1 (by decide) (by decide),
   (txn_delete_semantics tUpd dbA "a"
      { oldValue := some { addr := 0, value := "p" }
        newValue := some "x", state := stateUpdated }
      { addr := 0, value := "p" }).2.1 (by decide) (by decide),
   (txn_delete_semantics (NewTransaction "t") dbA "b"
      { oldValue := none, newValue := some "x", state := stateAdded }
      { addr := 0, value := "p" }).2.2.1 (by decide) (by decide),
   (txn_delete_semantics (NewTransaction "t") dbA "a"
      { oldValue := none, newValue := some "x", state := stateAdded }
      { addr := 0, value := "p" }).2.2.2 (by decide) (by decide)⟩

/-- Claim C7: staged writes are invisible outside their transaction.
`PutTxn` and `DeleteTxn` leave the committed store mapping (`data`)
unchanged for every key, so a non-transactional `Get` returns exactly what
it returned before the staging. -/
theorem staged_writes_invisible (d : Database) (k v x k2 : String) :
    (d.PutTxn k v x).2.data = d.data ∧
    (d.DeleteTxn k x).2.data = d.data ∧
    (d.PutTxn k v x).2.Get k2 = d.Get k2 ∧
    (d.DeleteTxn k x).2.Get k2 = d.Get k2 := by
  have h1 : (d.PutTxn k v x).2.data = d.data := by
    cases hg : d.getTransaction x <;> simp [Database.PutTxn, hg]
  have h2 : (d.DeleteTxn k x).2.data = d.data := by
    cases hg : d.getTransaction x <;> simp [Database.DeleteTxn, hg]
  refine ⟨h1, h2, ?_, ?_⟩ <;> simp [Database.Get, h1, h2]

/-- Claim C8: the overlay record invariant — `Added` iff `priorValue`
absent, `Deleted` implies `newValue` absent, non-`Deleted` implies
`newValue` present — holds after every sequence of overlay operations
started on a fresh transaction, is preserved by each single `Put` and
`Delete`, and a surviving record's `priorValue` (`oldValue`) is never
changed by `Put` or `Delete`, whatever the committed store looks like. -/
theorem overlay_record_invariant (ops : List TxnStep) (tid : String)
    (t : Transaction) (d : Database) (k k2 v : String)
    (e e' : UncommitedEntry)
    (ht : txnInv t) (hk : lookupA t.uncommitedData k = some e) :
    txnInv (applyOps (NewTransaction tid) ops) ∧
    txnInv (t.Put d k2 v) ∧
    txnInv (t.Delete d k2).2 ∧
    (lookupA (t.Put d k2 v).uncommitedData k = some e' →
      e'.oldValue = e.oldValue) ∧
    (lookupA (t.Delete d k2).2.uncommitedData k = some e' →
      e'.oldValue = e.oldValue) :=
  ⟨txnInv_applyOps ops _ (txnInv_new tid),
   txnInv_Put d k2 v ht,
   txnInv_Delete d k2 ht,
   oldValue_stable_Put t d k k2 v e e' hk,
   oldValue_stable_Delete t d k k2 e e' hk⟩

theorem overlay_record_invariant_witness :
    txnInv (applyOps (NewTransaction "t") [TxnStep.putStep dbA "a" "z"]) ∧
    txnInv (tUpd.Put dbA "a" "z") ∧
    txnInv (tUpd.Delete dbA "a").2 ∧
    UncommitedEntry.oldValue
        { oldValue := some { addr := 0, value := "p" }
          newValue := some "z", state := stateUpdated } =
      UncommitedEntry.oldValue
        { oldValue := some { addr := 0, value := "p" }
          newValue := some "x", state := stateUpdated } ∧
    UncommitedEntry.oldValue
        { oldValue := some { addr := 0, value := "p" }
          newValue := none, state := stateDeleted } =
      UncommitedEntry.oldValue
        { oldValue := some { addr := 0, value := "p" }
          newValue := some "x", state := stateUpdated } := by
  have h := overlay_record_invariant [TxnStep.putStep dbA "a" "z"] "t" tUpd
    dbA "a" "a" "z"
    { oldValue := some { addr := 0, value := "p" }
      newValue := some "x", state := stateUpdated }
    { oldValue := some { addr := 0, value := "p" }
      newValue := some "z", state := stateUpdated }
    (by decide) (by decide)
  have h2 := overlay_record_invariant [TxnStep.putStep dbA "a" "z"] "t" tUpd
    dbA "a" "a" "z"
    { oldValue := some { addr := 0, value := "p" }
      newValue := some "x", state := stateUpdated }
    { oldValue := some { addr := 0, value := "p" }
      newValue := none, state := stateDeleted }
    (by decide) (by decide)
  exact ⟨h.1, h.2.1, h.2.2.1, h.2.2.2.1 (by decide),
    h2.2.2.2.2 (by decide)⟩

/-- Claim C10: transactional reads stage nothing.  For EVERY database state
— in particular for every active transaction, whether or not it already
holds pending records — `GetTxn` returns the state unchanged: no pending
record is created or altered and the committed store is untouched.
Consequently a transaction whose overlay is still empty (as it is when only
reads ever ran in it, since reads change nothing) commits successfully and
leaves the committed store mapping unchanged. -/
theorem getTxn_stages_nothing (d d2 : Database) (x x2 k : String)
    (t : Transaction) :
    (d.GetTxn k x).2 = d ∧
    (lookupA d2.activeTransactions x2 = some t → t.uncommitedData = [] →
      x2 ≠ "" →
      (d2.CommitTransaction x2).1 = none ∧
      (d2.CommitTransaction x2).2.data = d2.data) := by
  constructor
  · cases hg : d.getTransaction x <;> simp [Database.GetTxn, hg]
  · intro hx ht hxe
    have hg : d2.getTransaction x2 = .ok t := by
      simp [Database.getTransaction, hxe, hx]
    constructor
    · simp [Database.CommitTransaction, hg, ht, checkDiscrepancy, applyAll]
    · simp [Database.CommitTransaction, hg, ht, checkDiscrepancy, applyAll]

theorem getTxn_stages_nothing_witness :
    (busyTxnDB.GetTxn "a" "t").2 = busyTxnDB ∧
    ((idleTxnDB.CommitTransaction "t").1 = none ∧
      (idleTxnDB.CommitTransaction "t").2.data = idleTxnDB.data) :=
  ⟨(getTxn_stages_nothing busyTxnDB idleTxnDB "t" "t" "a"
      (NewTransaction "t")).1,
   (getTxn_stages_nothing busyTxnDB idleTxnDB "t" "t" "a"
      (NewTransaction "t")).2 (by decide) (by decide) (by decide)⟩
